import Mathlib

/-
  Verification of the spritz_go repository: a shallow embedding of the
  Spritz stream-cipher envelope code (WrapWriter / WrapReader and friends)
  together with proofs of the behavioural claims made by the specification.

  Bytes are modelled as `Nat`; every place where Go's 8-bit arithmetic
  wraps, the model takes `% 256` explicitly.  Fallible operations return
  `Except String` (for the reader paths) or `Option String` (for the
  collected writer error), mirroring Go's `error` values by their message.
  I/O is modelled by explicit byte lists: a reader consumes a `List Nat`,
  a writer produces one.
-/

namespace Spritz

/-- Modelled from the spec: §3/§4.1.  The Spritz permutation state: the
256-entry permutation `s` plus the six 8-bit registers.  The engine source
file of the repository is not under `src/`, so the whole permutation
engine is modelled from the specification's byte-exact description. -/
structure SpritzState where
  s : List Nat
  i : Nat
  j : Nat
  k : Nat
  z : Nat
  a : Nat
  w : Nat
deriving Repr, DecidableEq

/-- Modelled from the spec: §4.1 `initialize` — `s[n] = n`, zero the
registers, `w = 1`.  (The Go function of the missing engine file is
`initialize`; the name is shortened here.) -/
def initState : SpritzState :=
  { s := List.range 256, i := 0, j := 0, k := 0, z := 0, a := 0, w := 1 }

/-- Read `s[x]` with the index reduced mod 256 (Go indexes with a byte). -/
def sget (st : SpritzState) (x : Nat) : Nat := st.s.getD (x % 256) 0

/-- Modelled from the spec: §4.1 `swap(state, x, y)`. -/
def sswap (st : SpritzState) (x y : Nat) : SpritzState :=
  { st with s := (st.s.set (x % 256) (sget st y)).set (y % 256) (sget st x) }

/-- Modelled from the spec: §4.1 `update` — advance `i`, `j`, `k` and swap
`s[i]` and `s[j]`, all arithmetic mod 256. -/
def update (st : SpritzState) : SpritzState :=
  let i' := (st.i + st.w) % 256
  let j' := (st.k + sget st (st.j + sget st i')) % 256
  let k' := (i' + st.k + sget st j') % 256
  sswap { st with i := i', j := j', k := k' } i' j'

/-- `update` applied `n` times. -/
def updN : SpritzState → Nat → SpritzState
  | st, 0 => st
  | st, n + 1 => updN (update st) n

/-- Modelled from the spec: §4.1 `whip(state, r)` — `r` updates then
`w ← w + 2`. -/
def whip (st : SpritzState) (r : Nat) : SpritzState :=
  let st1 := updN st r
  { st1 with w := (st1.w + 2) % 256 }

/-- Modelled from the spec: §4.1 `crush` — for `v` in 0..127 sort the pair
`s[v], s[255-v]`. -/
def crush (st : SpritzState) : SpritzState :=
  (List.range 128).foldl
    (fun acc v => if sget acc (255 - v) < sget acc v then sswap acc v (255 - v) else acc)
    st

/-- Modelled from the spec: §4.1 `shuffle` — whip/crush/whip/crush/whip and
reset the absorb counter `a`. -/
def shuffle (st : SpritzState) : SpritzState :=
  { whip (crush (whip (crush (whip st 512)) 512)) 512 with a := 0 }

/-- The inline `if a > 0 { shuffle }` guard used by `drip` and
`XORKeyStream`. -/
def maybeShuffle (st : SpritzState) : SpritzState :=
  if 0 < st.a then shuffle st else st

/-- Modelled from the spec: §4.1 `absorbNibble`. -/
def absorbNibble (st : SpritzState) (x : Nat) : SpritzState :=
  let st1 := if st.a = 128 then shuffle st else st
  let st2 := sswap st1 st1.a (128 + x)
  { st2 with a := st2.a + 1 }

/-- Modelled from the spec: §4.1 `absorbByte` (called `absorb` in the Go
source): absorb the low then the high nibble. -/
def absorb (st : SpritzState) (b : Nat) : SpritzState :=
  absorbNibble (absorbNibble st (b % 16)) (b / 16 % 16)

/-- Modelled from the spec: §4.1 `absorbMany` — absorb each byte in turn. -/
def absorbMany (st : SpritzState) (bs : List Nat) : SpritzState :=
  bs.foldl absorb st

/-- Modelled from the spec: §4.1 `absorbStop`. -/
def absorbStop (st : SpritzState) : SpritzState :=
  let st1 := if st.a = 128 then shuffle st else st
  { st1 with a := st1.a + 1 }

/-- Modelled from the spec: §4.1 `drip` — shuffle if absorbing, one
`update`, then produce `z`. -/
def drip (st : SpritzState) : SpritzState × Nat :=
  let st1 := maybeShuffle st
  let st2 := update st1
  let z' := sget st2 (st2.j + sget st2 (st2.i + sget st2 (st2.z + st2.k)))
  ({ st2 with z := z' }, z')

/-- Modelled from the spec: §4.1 `dripMany` — fill an `n`-byte buffer with
successive `drip` outputs. -/
def dripMany : SpritzState → Nat → SpritzState × List Nat
  | st, 0 => (st, [])
  | st, n + 1 =>
    let p := drip st
    let q := dripMany p.1 n
    (q.1, p.2 :: q.2)

/-- `drip` executed `n` times for its state effect only (the inline skip
loops of `readHeader` and `WrapWriter`). -/
def skipN : SpritzState → Nat → SpritzState
  | st, 0 => st
  | st, n + 1 => skipN (drip st).1 n

/-- Modelled from the spec: §4.1 `squeezeBytes` — shuffle if absorbing,
then `dripMany`. -/
def squeezeBytes (st : SpritzState) (n : Nat) : SpritzState × List Nat :=
  dripMany (maybeShuffle st) n

/-- Modelled from the spec: §4.2 `sum(bits, message)` (Go `Sum`): absorb
the message, a stop token and the byte-truncated digest size, then squeeze
`bits/8` bytes. -/
def Sum (bits : Nat) (msg : List Nat) : List Nat :=
  let n := bits / 8
  (squeezeBytes (absorb (absorbStop (absorbMany initState msg)) (n % 256)) n).2

/-- XOR a byte list against successive `drip` outputs (the loop body of
`XORKeyStream`, source lines 26–28). -/
def xorBytes : SpritzState → List Nat → SpritzState × List Nat
  | st, [] => (st, [])
  | st, v :: vs =>
    let p := drip st
    let q := xorBytes p.1 vs
    (q.1, (v ^^^ p.2) :: q.2)

/-- The state/ciphertext effect of one `XORKeyStream` call on `src` (both
Go's `cipher.StreamWriter.Write` and `cipher.StreamReader.Read` call
`XORKeyStream` with `len(dst) = len(src)`, so the destination plays no
role there). -/
def xorKeyStreamRun (st : SpritzState) (src : List Nat) : SpritzState × List Nat :=
  xorBytes (maybeShuffle st) src

/-- `XORKeyStream` from the source (lines 19–29): panics — modelled as
`none` — when the destination is shorter than the source, otherwise
shuffles once if `a > 0` and overwrites `dst[i]` with `src[i] XOR drip`
for each `i` below `len(src)`, leaving the tail of `dst` untouched. -/
def XORKeyStream (st : SpritzState) (dst src : List Nat) : Option (SpritzState × List Nat) :=
  if dst.length < src.length then none
  else
    let p := xorKeyStreamRun st src
    some (p.1, p.2 ++ dst.drop src.length)

/-- One round of `rehashKey` (source lines 96–103): drip into the `tmp`
buffer (overwriting it), absorb the iv, a stop token, and the freshly
dripped buffer. -/
def rehashRounds : SpritzState → List Nat → List Nat → Nat → SpritzState × List Nat
  | c, _, tmp, 0 => (c, tmp)
  | c, iv, tmp, n + 1 =>
    let p := dripMany c tmp.length
    rehashRounds (absorbMany (absorbStop (absorbMany p.1 iv)) p.2) iv p.2 n

/-- `rehashKey` from the source (lines 96–103): 20 drip/absorb rounds. -/
def rehashKey (c : SpritzState) (iv tmp : List Nat) : SpritzState :=
  (rehashRounds c iv tmp 20).1

/-- The iteration loop of `newStream` (source lines 48–54): re-initialize,
absorb the key bytes and a stop token, absorb the byte 128, and overwrite
the key bytes by dripping 128 fresh ones. -/
def keyRounds : SpritzState × List Nat → Nat → SpritzState × List Nat
  | p, 0 => p
  | p, n + 1 =>
    keyRounds (dripMany (absorb (absorbStop (absorbMany initState p.2)) 128) 128) n

/-- `newStream` from the source (lines 37–59). -/
def newStream (pw iv : List Nat) (iterations : Nat) : SpritzState :=
  let c1 := if 0 < iv.length then absorbStop (absorbMany initState iv) else initState
  let c2 := absorbMany c1 (Sum 1024 pw)
  let p := keyRounds (dripMany c2 128) iterations
  absorbMany initState p.2

/-- The key schedule exactly as claim C4 words it (following the spec's
steps): identical to `newStream` except that step 4 obtains the key bytes
as `squeezeBytes(128)` instead of a bare `dripMany` into a fresh buffer. -/
def newStreamSpec (pw iv : List Nat) (iterations : Nat) : SpritzState :=
  let c1 := if 0 < iv.length then absorbStop (absorbMany initState iv) else initState
  let c2 := absorbMany c1 (Sum 1024 pw)
  let p := keyRounds (squeezeBytes c2 128) iterations
  absorbMany initState p.2

/-- Error message of V1 integrity failure (source line 78). -/
def badPwV1Msg : String := "Bad password or corrupted file!"

/-- Error message of V2 integrity failure (source line 149). -/
def badPwV2Msg : String := "Bad pw or corrupted file!"

/-- Error carried by `io.ReadFull` when the source ends early. -/
def shortReadMsg : String := "unexpected EOF"

/-- The password-keyed state both `WrapWriter` (lines 197–204) and
`readHeader` (lines 114–121) build before touching the IV: absorb the
2048-bit password digest, a stop token, and the byte 4. -/
def headerKeyState (pw : List Nat) : SpritzState :=
  absorb (absorbStop (absorbMany initState (Sum 2048 pw))) 4

/-- The anti-V1 perturbation of the encrypted IV (source lines 215–219):
when the first encrypted byte is 1, re-mask it so that it decrypts to
`iv[0] + 1` instead of `iv[0]`. -/
def quirkEncIV (iv e : List Nat) : List Nat :=
  if e.headD 0 = 1 then
    (e.headD 0 ^^^ iv.headD 0 ^^^ ((iv.headD 0 + 1) % 256)) :: e.tail
  else e

/-- The iv value actually fed to the rehash by the writer (source lines
215–219): first byte incremented mod 256 when the perturbation fires. -/
def quirkIV (iv e : List Nat) : List Nat :=
  if e.headD 0 = 1 then ((iv.headD 0 + 1) % 256) :: iv.tail else iv

/-- `errs.First`: the first non-nil error of the collected write errors. -/
def errsFirst (es : List (Option String)) : Option String :=
  es.findSome? (fun e => e)

/-- `WrapWriter` from the source (lines 196–255), with the RNG modelled by
the supplied `iv` and `rbytes` draws and the sink modelled by the list of
outcomes of its successive `Write` calls (entry `n` is the error, if any,
of the `n`-th call; call 0 is the direct `sink.Write(encIV)`, calls 1–4
are the four stream-writer writes).  Returns the collected error of
source line 254, the stream state left for the payload, and the bytes that
actually reached the sink (a failing call writes nothing). -/
def WrapWriter (sink : List (Option String)) (pw origfn iv rbytes : List Nat) :
    Option String × SpritzState × List Nat :=
  let tmp256 := Sum 2048 pw
  let p := xorKeyStreamRun (headerKeyState pw) iv
  let encIV := quirkEncIV iv p.2
  let out0 := if (sink.getD 0 none).isNone then encIV else []
  let c3 := rehashKey p.1 (quirkIV iv p.2) tmp256
  let pr := xorKeyStreamRun c3 rbytes
  let out1 := if (sink.getD 1 none).isNone then pr.2 else []
  let c5 := skipN pr.1 (rbytes.getD 3 0)
  let pv := xorKeyStreamRun c5 [2]
  let out2 := if (sink.getD 2 none).isNone then pv.2 else []
  let ph := xorKeyStreamRun pv.1 (Sum 32 rbytes)
  let out3 := if (sink.getD 3 none).isNone then ph.2 else []
  let pn := xorKeyStreamRun ph.1 ((origfn.length % 256) :: origfn)
  let out4 := if (sink.getD 4 none).isNone then pn.2 else []
  (errsFirst [sink.getD 1 none, sink.getD 2 none, sink.getD 3 none, sink.getD 4 none],
   pn.1, out0 ++ out1 ++ out2 ++ out3 ++ out4)

/-- The full envelope produced on a perfect sink: the header written by
`WrapWriter` followed by the payload encrypted through the returned
stream writer. -/
def wrapWriterBytes (pw fn payload iv rbytes : List Nat) : List Nat :=
  let r := WrapWriter (List.replicate 5 none) pw fn iv rbytes
  r.2.2 ++ (xorKeyStreamRun r.2.1 payload).2

/-- `readV1Header` from the source (lines 61–93), on an explicit input
byte list; the returned pair is the stored filename and the decrypted
remainder of the input (the payload the returned reader would yield). -/
def readV1Header (src : List Nat) (pw : List Nat) : Except String (List Nat × List Nat) :=
  if 4 ≤ src.length then
    let iv := src.take 4
    let src1 := src.drop 4
    let st := newStream pw iv 5000
    if 9 ≤ src1.length then
      let ph := xorKeyStreamRun st (src1.take 9)
      let h := ph.2
      let src2 := src1.drop 9
      if Sum 32 (h.take 4) ≠ (h.drop 4).take 4 then .error badPwV1Msg
      else
        let fnlen := h.getD 8 0
        if 0 < fnlen then
          if fnlen ≤ src2.length then
            let pf := xorKeyStreamRun ph.1 (src2.take fnlen)
            .ok (pf.2, (xorKeyStreamRun pf.1 (src2.drop fnlen)).2)
          else .error shortReadMsg
        else .ok ([], (xorKeyStreamRun ph.1 src2).2)
    else .error shortReadMsg
  else .error shortReadMsg

/-- `readHeader` from the source (lines 107–164), on an explicit input
byte list (`src` is the input after the already-consumed first byte). -/
def readHeader (src : List Nat) (firstByte : Nat) (pw : List Nat) :
    Except String (List Nat × List Nat) :=
  if 3 ≤ src.length then
    let encIV := firstByte :: src.take 3
    let src1 := src.drop 3
    let p := xorKeyStreamRun (headerKeyState pw) encIV
    let c3 := rehashKey p.1 p.2 (Sum 2048 pw)
    if 4 ≤ src1.length then
      let pr := xorKeyStreamRun c3 (src1.take 4)
      let rbytes := pr.2
      let c5 := skipN pr.1 (rbytes.getD 3 0)
      let src2 := src1.drop 4
      if 6 ≤ src2.length then
        let prem := xorKeyStreamRun c5 (src2.take 6)
        let remaining := prem.2
        let src3 := src2.drop 6
        if remaining.getD 0 0 ≠ 2 ∨ (remaining.drop 1).take 4 ≠ Sum 32 rbytes then
          .error badPwV2Msg
        else
          let fnlen := remaining.getD 5 0
          if 0 < fnlen then
            if fnlen ≤ src3.length then
              let pf := xorKeyStreamRun prem.1 (src3.take fnlen)
              .ok (pf.2, (xorKeyStreamRun pf.1 (src3.drop fnlen)).2)
            else .error shortReadMsg
          else .ok ([], (xorKeyStreamRun prem.1 src3).2)
      else .error shortReadMsg
    else .error shortReadMsg
  else .error shortReadMsg

/-- `WrapReader` from the source (lines 173–187): dispatch on the first
byte — 1 selects the V1 header, anything else the V2 header. -/
def WrapReader (input : List Nat) (pw : List Nat) : Except String (List Nat × List Nat) :=
  match input with
  | [] => .error shortReadMsg
  | b :: rest => if b = 1 then readV1Header rest pw else readHeader rest b pw

/-! ### Basic facts about the absorb counter and the keystream -/

theorem shuffle_a (st : SpritzState) : (shuffle st).a = 0 := rfl

theorem update_a (st : SpritzState) : (update st).a = st.a := rfl

theorem maybeShuffle_a (st : SpritzState) : (maybeShuffle st).a = 0 := by
  unfold maybeShuffle
  by_cases h : 0 < st.a
  · simp [h, shuffle_a]
  · simp [h]; omega

theorem maybeShuffle_eq_self (st : SpritzState) (h : st.a = 0) : maybeShuffle st = st := by
  simp [maybeShuffle, h]

theorem maybeShuffle_idem (st : SpritzState) :
    maybeShuffle (maybeShuffle st) = maybeShuffle st :=
  maybeShuffle_eq_self _ (maybeShuffle_a st)

theorem drip_fst_a (st : SpritzState) : (drip st).1.a = 0 := by
  show (update (maybeShuffle st)).a = 0
  rw [update_a, maybeShuffle_a]

theorem drip_maybeShuffle (st : SpritzState) : drip (maybeShuffle st) = drip st := by
  unfold drip
  rw [maybeShuffle_idem]

theorem dripMany_length (st : SpritzState) (n : Nat) : (dripMany st n).2.length = n := by
  induction n generalizing st with
  | zero => rfl
  | succ n ih => simp [dripMany, ih]

theorem dripMany_maybeShuffle (st : SpritzState) (n : Nat) (h : 0 < n) :
    dripMany (maybeShuffle st) n = dripMany st n := by
  cases n with
  | zero => omega
  | succ n => simp only [dripMany, drip_maybeShuffle]

theorem Sum_length (bits : Nat) (msg : List Nat) : (Sum bits msg).length = bits / 8 := by
  unfold Sum squeezeBytes
  exact dripMany_length _ _

theorem xorBytes_length (st : SpritzState) (vs : List Nat) :
    (xorBytes st vs).2.length = vs.length := by
  induction vs generalizing st with
  | nil => rfl
  | cons v vs ih => simp [xorBytes, ih]

theorem xorBytes_fst_a (st : SpritzState) (vs : List Nat) (h : st.a = 0) :
    (xorBytes st vs).1.a = 0 := by
  induction vs generalizing st with
  | nil => simpa [xorBytes]
  | cons v vs ih => simpa [xorBytes] using ih (drip st).1 (drip_fst_a st)

theorem run_fst_a (st : SpritzState) (vs : List Nat) :
    (xorKeyStreamRun st vs).1.a = 0 :=
  xorBytes_fst_a _ _ (maybeShuffle_a st)

theorem xorBytes_append (st : SpritzState) (xs ys : List Nat) :
    xorBytes st (xs ++ ys) =
      ((xorBytes (xorBytes st xs).1 ys).1,
        (xorBytes st xs).2 ++ (xorBytes (xorBytes st xs).1 ys).2) := by
  induction xs generalizing st with
  | nil => simp [xorBytes]
  | cons x xs ih => simp [xorBytes, ih]

theorem run_append (st : SpritzState) (xs ys : List Nat) :
    xorKeyStreamRun st (xs ++ ys) =
      ((xorKeyStreamRun (xorKeyStreamRun st xs).1 ys).1,
        (xorKeyStreamRun st xs).2 ++ (xorKeyStreamRun (xorKeyStreamRun st xs).1 ys).2) := by
  unfold xorKeyStreamRun
  rw [xorBytes_append,
    maybeShuffle_eq_self _ (xorBytes_fst_a _ _ (maybeShuffle_a st))]

theorem xorBytes_fst_congr (st : SpritzState) (vs ws : List Nat)
    (h : vs.length = ws.length) : (xorBytes st vs).1 = (xorBytes st ws).1 := by
  induction vs generalizing ws st with
  | nil => cases ws with
    | nil => rfl
    | cons w ws => simp at h
  | cons v vs ih =>
    cases ws with
    | nil => simp at h
    | cons w ws =>
      simp only [List.length_cons, Nat.add_right_cancel_iff] at h
      simpa [xorBytes] using ih (drip st).1 ws h

theorem run_fst_congr (st : SpritzState) (vs ws : List Nat)
    (h : vs.length = ws.length) :
    (xorKeyStreamRun st vs).1 = (xorKeyStreamRun st ws).1 :=
  xorBytes_fst_congr _ _ _ h

theorem run_length (st : SpritzState) (vs : List Nat) :
    (xorKeyStreamRun st vs).2.length = vs.length :=
  xorBytes_length _ _

theorem xorBytes_cancel (st : SpritzState) (vs : List Nat) :
    xorBytes st (xorBytes st vs).2 = ((xorBytes st vs).1, vs) := by
  induction vs generalizing st with
  | nil => rfl
  | cons v vs ih =>
    simp only [xorBytes]
    rw [ih (drip st).1]
    simp [Nat.xor_cancel_right]

theorem run_cancel (st : SpritzState) (vs : List Nat) :
    xorKeyStreamRun st (xorKeyStreamRun st vs).2 = ((xorKeyStreamRun st vs).1, vs) :=
  xorBytes_cancel _ _

theorem xorBytes_eq_zipWith (st : SpritzState) (vs : List Nat) :
    (xorBytes st vs).2 =
      List.zipWith (fun v k => v ^^^ k) vs (dripMany st vs.length).2 := by
  induction vs generalizing st with
  | nil => rfl
  | cons v vs ih => simp [xorBytes, dripMany, ih]

theorem xorBytes_fst_eq_dripMany (st : SpritzState) (vs : List Nat) :
    (xorBytes st vs).1 = (dripMany st vs.length).1 := by
  induction vs generalizing st with
  | nil => rfl
  | cons v vs ih => simp [xorBytes, dripMany, ih]

/-! ### The anti-V1 perturbation -/

theorem xor_unmask (v k u : Nat) : ((v ^^^ k) ^^^ v ^^^ u) ^^^ k = u := by
  have h1 : (v ^^^ k) ^^^ v = k := by
    rw [Nat.xor_comm v k, Nat.xor_cancel_right]
  rw [h1, Nat.xor_comm k u, Nat.xor_cancel_right]

theorem succ_mod_ne (a : Nat) : (a + 1) % 256 ≠ a := by omega

theorem xor_unmask1 (v k u : Nat) (h : v ^^^ k = 1) : 1 ^^^ v ^^^ u ^^^ k = u := by
  rw [← h]
  exact xor_unmask v k u

theorem quirkEncIV_headD_ne_one (iv e : List Nat) : (quirkEncIV iv e).headD 0 ≠ 1 := by
  unfold quirkEncIV
  by_cases h : e.headD 0 = 1
  · rw [if_pos h, h]
    show (1 ^^^ iv.headD 0) ^^^ (iv.headD 0 + 1) % 256 ≠ 1
    intro hc
    have h4 : iv.headD 0 ^^^ (iv.headD 0 + 1) % 256 = 0 := by
      have h3 : 1 ^^^ ((1 ^^^ iv.headD 0) ^^^ (iv.headD 0 + 1) % 256) = 1 ^^^ 1 := by
        rw [hc]
      simpa [← Nat.xor_assoc, Nat.xor_self, Nat.zero_xor] using h3
    exact succ_mod_ne (iv.headD 0) (Nat.xor_eq_zero.mp h4).symm
  · rw [if_neg h]
    exact h

theorem quirkEncIV_length (iv e : List Nat) (he : e ≠ []) :
    (quirkEncIV iv e).length = e.length := by
  cases e with
  | nil => exact absurd rfl he
  | cons x xs =>
    unfold quirkEncIV
    by_cases h : (x :: xs).headD 0 = 1
    · rw [if_pos h]
      simp
    · rw [if_neg h]

theorem quirkIV_length (iv e : List Nat) (hi : iv ≠ []) :
    (quirkIV iv e).length = iv.length := by
  cases iv with
  | nil => exact absurd rfl hi
  | cons x xs =>
    unfold quirkIV
    by_cases h : e.headD 0 = 1
    · rw [if_pos h]
      simp
    · rw [if_neg h]

/-- The reader's in-place XOR of the stored `encIV` recovers exactly the
iv value the writer used for the rehash: the perturbed iv when the
anti-V1 branch fired, the plain iv otherwise. -/
theorem quirk_decrypt (st : SpritzState) (iv : List Nat) (h : iv ≠ []) :
    xorKeyStreamRun st (quirkEncIV iv (xorKeyStreamRun st iv).2) =
      ((xorKeyStreamRun st iv).1, quirkIV iv (xorKeyStreamRun st iv).2) := by
  cases iv with
  | nil => exact absurd rfl h
  | cons v vs =>
    by_cases hq : (xorKeyStreamRun st (v :: vs)).2.headD 0 = 1
    · have hrun : xorKeyStreamRun st (v :: vs) =
          ((xorBytes (drip (maybeShuffle st)).1 vs).1,
            (v ^^^ (drip (maybeShuffle st)).2) :: (xorBytes (drip (maybeShuffle st)).1 vs).2) := by
        simp [xorKeyStreamRun, xorBytes]
      rw [hrun] at hq ⊢
      simp only [List.headD] at hq
      unfold quirkEncIV quirkIV
      simp only [hq, List.headD, List.tail_cons, if_pos]
      simp only [xorKeyStreamRun, xorBytes, List.headD]
      rw [xorBytes_cancel]
      simp
      exact xor_unmask1 v ((drip (maybeShuffle st)).2) ((v + 1) % 256) hq
    · unfold quirkEncIV quirkIV
      rw [if_neg hq, if_neg hq]
      exact run_cancel st (v :: vs)

/-! ### The writer's byte stream -/

/-- The envelope, written out as the concatenation of its pieces. -/
theorem wrapWriterBytes_eq (pw fn payload iv rbytes : List Nat) :
    wrapWriterBytes pw fn payload iv rbytes =
      quirkEncIV iv (xorKeyStreamRun (headerKeyState pw) iv).2 ++
      ((xorKeyStreamRun
          (rehashKey (xorKeyStreamRun (headerKeyState pw) iv).1
            (quirkIV iv (xorKeyStreamRun (headerKeyState pw) iv).2) (Sum 2048 pw))
          rbytes).2 ++
        ((xorKeyStreamRun
            (skipN (xorKeyStreamRun
              (rehashKey (xorKeyStreamRun (headerKeyState pw) iv).1
                (quirkIV iv (xorKeyStreamRun (headerKeyState pw) iv).2) (Sum 2048 pw))
              rbytes).1 (rbytes.getD 3 0)) [2]).2 ++
          ((xorKeyStreamRun (xorKeyStreamRun
              (skipN (xorKeyStreamRun
                (rehashKey (xorKeyStreamRun (headerKeyState pw) iv).1
                  (quirkIV iv (xorKeyStreamRun (headerKeyState pw) iv).2) (Sum 2048 pw))
                rbytes).1 (rbytes.getD 3 0)) [2]).1 (Sum 32 rbytes)).2 ++
            ((xorKeyStreamRun (xorKeyStreamRun (xorKeyStreamRun
                (skipN (xorKeyStreamRun
                  (rehashKey (xorKeyStreamRun (headerKeyState pw) iv).1
                    (quirkIV iv (xorKeyStreamRun (headerKeyState pw) iv).2) (Sum 2048 pw))
                  rbytes).1 (rbytes.getD 3 0)) [2]).1 (Sum 32 rbytes)).1
                ((fn.length % 256) :: fn)).2 ++
              (xorKeyStreamRun (xorKeyStreamRun (xorKeyStreamRun (xorKeyStreamRun
                (skipN (xorKeyStreamRun
                  (rehashKey (xorKeyStreamRun (headerKeyState pw) iv).1
                    (quirkIV iv (xorKeyStreamRun (headerKeyState pw) iv).2) (Sum 2048 pw))
                  rbytes).1 (rbytes.getD 3 0)) [2]).1 (Sum 32 rbytes)).1
                ((fn.length % 256) :: fn)).1 payload).2)))) := by
  simp [wrapWriterBytes, WrapWriter]

/-! ### The round trip -/

/-- Reading back a written envelope with the same password: the recovered
filename is the prefix of the original one cut at the stored length byte
`len % 256`, and the recovered payload is the rest of the filename (empty
when the filename is shorter than 256 bytes) followed by the payload. -/
theorem wrap_roundtrip (pw fn payload iv rbytes : List Nat)
    (hiv : iv.length = 4) (hrb : rbytes.length = 4) :
    WrapReader (wrapWriterBytes pw fn payload iv rbytes) pw =
      .ok (fn.take (fn.length % 256), fn.drop (fn.length % 256) ++ payload) := by
  have hivne : iv ≠ [] := by intro h; rw [h] at hiv; simp at hiv
  rw [wrapWriterBytes_eq]
  set p := xorKeyStreamRun (headerKeyState pw) iv with hp
  set E := quirkEncIV iv p.2 with hE
  set iv2 := quirkIV iv p.2 with hiv2def
  set c3 := rehashKey p.1 iv2 (Sum 2048 pw) with hc3
  set pr := xorKeyStreamRun c3 rbytes with hpr
  set c5 := skipN pr.1 (rbytes.getD 3 0) with hc5
  set pv := xorKeyStreamRun c5 [2] with hpv
  set S := Sum 32 rbytes with hS
  set ph := xorKeyStreamRun pv.1 S with hph
  set fnl := fn.length % 256 with hfnl
  have hsplit : xorKeyStreamRun ph.1 (fnl :: fn) =
      ((xorKeyStreamRun (xorKeyStreamRun ph.1 [fnl]).1 fn).1,
        (xorKeyStreamRun ph.1 [fnl]).2 ++ (xorKeyStreamRun (xorKeyStreamRun ph.1 [fnl]).1 fn).2) := by
    simpa using run_append ph.1 [fnl] fn
  rw [hsplit]
  dsimp only
  set pn1 := xorKeyStreamRun ph.1 [fnl] with hpn1
  set pn2 := xorKeyStreamRun pn1.1 fn with hpn2
  set pl := xorKeyStreamRun pn2.1 payload with hpl
  -- lengths of the written pieces
  have hp2len : p.2.length = 4 := by rw [hp, run_length]; exact hiv
  have hp2ne : p.2 ≠ [] := by intro h; rw [h] at hp2len; simp at hp2len
  have hElen : E.length = 4 := by
    rw [hE, quirkEncIV_length iv p.2 hp2ne]; exact hp2len
  have hRlen : pr.2.length = 4 := by rw [hpr, run_length]; exact hrb
  have hSlen : S.length = 4 := by rw [hS]; exact Sum_length 32 rbytes
  have hVlen : pv.2.length = 1 := by rw [hpv, run_length]; rfl
  have hHlen : ph.2.length = 4 := by rw [hph, run_length]; exact hSlen
  have hN1len : pn1.2.length = 1 := by rw [hpn1, run_length]; rfl
  have hN2len : pn2.2.length = fn.length := by rw [hpn2, run_length]
  -- split the stored encIV into its head byte and tail
  obtain ⟨e0, et, hEeq⟩ : ∃ a t, E = a :: t := by
    cases hE2 : E with
    | nil => rw [hE2] at hElen; simp at hElen
    | cons a t => exact ⟨a, t, rfl⟩
  have het : et.length = 3 := by
    have := hElen
    rw [hEeq] at this
    simpa using this
  have he0 : ¬ e0 = 1 := by
    have h1 := quirkEncIV_headD_ne_one iv p.2
    rw [← hE, hEeq] at h1
    simpa using h1
  -- the reader's IV decryption recovers the writer's rehash iv
  have hQ : xorKeyStreamRun (headerKeyState pw) (e0 :: et) = (p.1, iv2) := by
    have h1 := quirk_decrypt (headerKeyState pw) iv hivne
    rw [← hp, ← hE, ← hiv2def, hEeq] at h1
    exact h1
  -- dispatch: the first byte is never 1, so the V2 path runs
  rw [hEeq, List.cons_append]
  simp only [WrapReader]
  rw [if_neg he0]
  -- now walk readHeader over the written bytes
  simp only [readHeader]
  have F0 : 3 ≤ (et ++ (pr.2 ++ (pv.2 ++ (ph.2 ++ ((pn1.2 ++ pn2.2) ++ pl.2))))).length := by
    simp [het]
  have F1 : (et ++ (pr.2 ++ (pv.2 ++ (ph.2 ++ ((pn1.2 ++ pn2.2) ++ pl.2))))).take 3 =
      et := List.take_left' het
  have F2 : (et ++ (pr.2 ++ (pv.2 ++ (ph.2 ++ ((pn1.2 ++ pn2.2) ++ pl.2))))).drop 3 =
      pr.2 ++ (pv.2 ++ (ph.2 ++ ((pn1.2 ++ pn2.2) ++ pl.2))) := List.drop_left' het
  rw [if_pos F0, F1, F2, hQ]
  dsimp only
  rw [← hc3]
  have F3 : 4 ≤ (pr.2 ++ (pv.2 ++ (ph.2 ++ ((pn1.2 ++ pn2.2) ++ pl.2)))).length := by
    simp [hRlen]
  have F4 : (pr.2 ++ (pv.2 ++ (ph.2 ++ ((pn1.2 ++ pn2.2) ++ pl.2)))).take 4 =
      pr.2 := List.take_left' hRlen
  have F5 : (pr.2 ++ (pv.2 ++ (ph.2 ++ ((pn1.2 ++ pn2.2) ++ pl.2)))).drop 4 =
      pv.2 ++ (ph.2 ++ ((pn1.2 ++ pn2.2) ++ pl.2)) := List.drop_left' hRlen
  have G1 : xorKeyStreamRun c3 pr.2 = (pr.1, rbytes) := by
    have h1 := run_cancel c3 rbytes
    rw [← hpr] at h1
    exact h1
  rw [if_pos F3, F4, F5, G1]
  dsimp only
  rw [← hc5]
  have hYassoc : pv.2 ++ (ph.2 ++ ((pn1.2 ++ pn2.2) ++ pl.2)) =
      ((pv.2 ++ ph.2) ++ pn1.2) ++ (pn2.2 ++ pl.2) := by
    simp [List.append_assoc]
  rw [hYassoc]
  have hABlen : ((pv.2 ++ ph.2) ++ pn1.2).length = 6 := by
    simp [hVlen, hHlen, hN1len]
  have F6 : 6 ≤ (((pv.2 ++ ph.2) ++ pn1.2) ++ (pn2.2 ++ pl.2)).length := by
    simp only [List.length_append]
    rw [hVlen, hHlen, hN1len]
    omega
  have F7 : (((pv.2 ++ ph.2) ++ pn1.2) ++ (pn2.2 ++ pl.2)).take 6 =
      (pv.2 ++ ph.2) ++ pn1.2 := List.take_left' hABlen
  have F8 : (((pv.2 ++ ph.2) ++ pn1.2) ++ (pn2.2 ++ pl.2)).drop 6 =
      pn2.2 ++ pl.2 := List.drop_left' hABlen
  have g2a : xorKeyStreamRun c5 pv.2 = (pv.1, [2]) := by
    have h1 := run_cancel c5 [2]
    rw [← hpv] at h1
    exact h1
  have g2b : xorKeyStreamRun pv.1 ph.2 = (ph.1, S) := by
    have h1 := run_cancel pv.1 S
    rw [← hph] at h1
    exact h1
  have g2c : xorKeyStreamRun ph.1 pn1.2 = (pn1.1, [fnl]) := by
    have h1 := run_cancel ph.1 [fnl]
    rw [← hpn1] at h1
    exact h1
  have G2 : xorKeyStreamRun c5 ((pv.2 ++ ph.2) ++ pn1.2) =
      (pn1.1, ([2] ++ S) ++ [fnl]) := by
    rw [run_append c5 (pv.2 ++ ph.2) pn1.2, run_append c5 pv.2 ph.2, g2a]
    dsimp only
    rw [g2b]
    dsimp only
    rw [g2c]
  rw [if_pos F6, F7, F8, G2]
  dsimp only
  have R0 : (([2] ++ S) ++ [fnl]).getD 0 0 = 2 := by simp
  have R1 : ((([2] ++ S) ++ [fnl]).drop 1).take 4 = S := by
    have h1 : ([2] ++ S) ++ [fnl] = 2 :: (S ++ [fnl]) := by simp
    rw [h1, List.drop_one, List.tail_cons]
    exact List.take_left' hSlen
  have R5 : (([2] ++ S) ++ [fnl]).getD 5 0 = fnl := by
    have h1 : ([2] ++ S).length = 5 := by simp [hSlen]
    rw [List.getD_append_right ([2] ++ S) [fnl] 0 5 (by omega), h1]
    simp
  rw [R0, R1, R5]
  rw [if_neg (by simp : ¬ ((2:Nat) ≠ 2 ∨ S ≠ S))]
  by_cases hfz : 0 < fnl
  · -- a nonzero stored length byte: the reader returns that many bytes
    have hfle : fnl ≤ fn.length := by rw [hfnl]; exact Nat.mod_le _ _
    have hfle2 : fnl ≤ (pn2.2 ++ pl.2).length := by
      rw [List.length_append, hN2len]
      omega
    rw [if_pos hfz, if_pos hfle2]
    -- split the encrypted filename at the stored length
    have hfn : fn.take fnl ++ fn.drop fnl = fn := List.take_append_drop fnl fn
    set pnA := xorKeyStreamRun pn1.1 (fn.take fnl) with hpnA
    set pnB := xorKeyStreamRun pnA.1 (fn.drop fnl) with hpnB
    have hsplit2 : pn2 = (pnB.1, pnA.2 ++ pnB.2) := by
      rw [hpn2]
      conv_lhs => rw [← hfn]
      rw [run_append, ← hpnA, ← hpnB]
    have hplB : pl = xorKeyStreamRun pnB.1 payload := by
      rw [hpl, hsplit2]
    have hAlen : pnA.2.length = fnl := by
      rw [hpnA, run_length, List.length_take]
      omega
    have T0 : pn2.2 ++ pl.2 = pnA.2 ++ (pnB.2 ++ pl.2) := by
      rw [hsplit2]
      simp [List.append_assoc]
    have T1 : (pnA.2 ++ (pnB.2 ++ pl.2)).take fnl = pnA.2 := List.take_left' hAlen
    have T2 : (pnA.2 ++ (pnB.2 ++ pl.2)).drop fnl = pnB.2 ++ pl.2 := List.drop_left' hAlen
    have GA : xorKeyStreamRun pn1.1 pnA.2 = (pnA.1, fn.take fnl) := by
      have h1 := run_cancel pn1.1 (fn.take fnl)
      rw [← hpnA] at h1
      exact h1
    have GB : xorKeyStreamRun pnA.1 pnB.2 = (pnB.1, fn.drop fnl) := by
      have h1 := run_cancel pnA.1 (fn.drop fnl)
      rw [← hpnB] at h1
      exact h1
    have GP : xorKeyStreamRun pnB.1 pl.2 = (pl.1, payload) := by
      have h1 := run_cancel pnB.1 payload
      rw [← hplB] at h1
      exact h1
    rw [T0, T1, T2, GA]
    dsimp only
    rw [run_append, GB]
    dsimp only
    rw [GP]
  · -- stored length byte zero: no filename is read back
    have hf0 : fnl = 0 := by omega
    rw [if_neg hfz]
    have G4 : xorKeyStreamRun pn1.1 pn2.2 = (pn2.1, fn) := by
      have h1 := run_cancel pn1.1 fn
      rw [← hpn2] at h1
      exact h1
    have G5 : xorKeyStreamRun pn2.1 pl.2 = (pl.1, payload) := by
      have h1 := run_cancel pn2.1 payload
      rw [← hpl] at h1
      exact h1
    rw [run_append, G4]
    dsimp only
    rw [G5]
    dsimp only
    rw [hf0]
    simp

/-! ### Dispatch of the first byte -/

theorem wrapReader_dispatch (E rest pw2 : List Nat) (hElen : E.length = 4)
    (hne : E.headD 0 ≠ 1) :
    (E ++ rest).headD 0 ≠ 1 ∧
      WrapReader (E ++ rest) pw2 =
        readHeader ((E ++ rest).drop 1) ((E ++ rest).headD 0) pw2 := by
  obtain ⟨e0, et, hEeq⟩ : ∃ a t, E = a :: t := by
    cases hE2 : E with
    | nil => rw [hE2] at hElen; simp at hElen
    | cons a t => exact ⟨a, t, rfl⟩
  subst hEeq
  simp only [List.cons_append, List.headD, List.drop_succ_cons, List.drop_zero] at hne ⊢
  refine ⟨hne, ?_⟩
  simp only [WrapReader]
  rw [if_neg hne]

theorem squeezeBytes_eq_dripMany (st : SpritzState) (n : Nat) (h : 0 < n) :
    squeezeBytes st n = dripMany st n := by
  unfold squeezeBytes
  exact dripMany_maybeShuffle st n h

/-! ### The claims -/

/-- C4: `newStream` performs exactly the key schedule the specification
describes — the only textual difference, `squeezeBytes(128)` against a
bare `dripMany` into a fresh 128-byte buffer, is immaterial because the
first `drip` performs the pending shuffle itself. -/
theorem claim_C4_newStream_schedule (pw iv : List Nat) (iterations : Nat) :
    newStream pw iv iterations = newStreamSpec pw iv iterations := by
  simp only [newStream, newStreamSpec]
  rw [squeezeBytes_eq_dripMany _ _ (by omega)]

/-- C5: `XORKeyStream` refuses a destination shorter than the source
(modelled as `none` for the Go panic) and otherwise shuffles once when
`a > 0` and XORs each source byte with the next `drip` output, in order,
leaving the tail of the destination untouched. -/
theorem claim_C5_xorKeyStream (st : SpritzState) (dst src : List Nat) :
    XORKeyStream st dst src =
      if dst.length < src.length then none
      else
        some ((dripMany (if 0 < st.a then shuffle st else st) src.length).1,
          List.zipWith (fun v k => v ^^^ k) src
              (dripMany (if 0 < st.a then shuffle st else st) src.length).2 ++
            dst.drop src.length) := by
  unfold XORKeyStream xorKeyStreamRun maybeShuffle
  by_cases h : dst.length < src.length
  · rw [if_pos h, if_pos h]
  · rw [if_neg h, if_neg h]
    simp only [xorBytes_fst_eq_dripMany, xorBytes_eq_zipWith]

/-- C1 (amended): the envelope round trip recovers the filename and the
payload exactly, for filenames shorter than 256 bytes (the stored length
is a single byte, see C9). -/
theorem claim_C1_roundtrip (pw fn payload iv rbytes : List Nat)
    (hiv : iv.length = 4) (hrb : rbytes.length = 4) (hfn : fn.length < 256) :
    WrapReader (wrapWriterBytes pw fn payload iv rbytes) pw = .ok (fn, payload) := by
  have h := wrap_roundtrip pw fn payload iv rbytes hiv hrb
  rw [Nat.mod_eq_of_lt hfn] at h
  simpa using h

theorem claim_C1_witness :
    ([0, 0, 0, 0] : List Nat).length = 4 ∧ ([102] : List Nat).length < 256 ∧
      WrapReader (wrapWriterBytes [112, 119] [102] [104, 105] [0, 0, 0, 0] [4, 5, 6, 7])
          [112, 119] =
        .ok ([102], [104, 105]) :=
  ⟨by decide, by decide,
    claim_C1_roundtrip [112, 119] [102] [104, 105] [0, 0, 0, 0] [4, 5, 6, 7]
      (by decide) (by decide) (by decide)⟩

/-- C1 fails as originally stated: a 256-byte filename wraps the stored
length byte to 0, so reading the envelope back does not return the
original filename. -/
theorem claim_C1_counterexample :
    WrapReader
        (wrapWriterBytes [] (List.replicate 256 97) [] [0, 0, 0, 0] [0, 0, 0, 0]) [] ≠
      .ok (List.replicate 256 97, []) := by
  have h := wrap_roundtrip [] (List.replicate 256 97) [] [0, 0, 0, 0] [0, 0, 0, 0]
    (by decide) (by decide)
  have h2 : (List.replicate 256 97).length % 256 = 0 := by
    rw [List.length_replicate]
  rw [h2, List.take_zero, List.drop_zero, List.append_nil] at h
  rw [h]
  intro hc
  injection hc with h4
  have h5 : ([] : List Nat) = List.replicate 256 97 := congrArg Prod.fst h4
  have h6 := congrArg List.length h5
  simp only [List.length_nil, List.length_replicate] at h6
  omega

/-- C9: for a filename of 256 bytes or more, the stored length byte is
`len % 256` while all `len` filename bytes are written, so the reader
returns only that prefix of the filename (the surplus bytes spill into
the payload) and never the original filename. -/
theorem claim_C9_filename_wrap (pw fn payload iv rbytes : List Nat)
    (hiv : iv.length = 4) (hrb : rbytes.length = 4) (hfn : 256 ≤ fn.length) :
    WrapReader (wrapWriterBytes pw fn payload iv rbytes) pw =
        .ok (fn.take (fn.length % 256), fn.drop (fn.length % 256) ++ payload) ∧
      fn.take (fn.length % 256) ≠ fn := by
  refine ⟨wrap_roundtrip pw fn payload iv rbytes hiv hrb, ?_⟩
  intro hc
  have hlt : fn.length % 256 < fn.length :=
    lt_of_lt_of_le (Nat.mod_lt _ (by omega)) hfn
  have hlen := congrArg List.length hc
  rw [List.length_take, Nat.min_eq_left (Nat.le_of_lt hlt)] at hlen
  omega

theorem claim_C9_witness :
    ([0, 0, 0, 0] : List Nat).length = 4 ∧ 256 ≤ (List.replicate 256 97).length ∧
      (WrapReader (wrapWriterBytes [] (List.replicate 256 97) [5] [0, 0, 0, 0] [0, 0, 0, 0]) [] =
          .ok ((List.replicate 256 97).take ((List.replicate 256 97).length % 256),
            (List.replicate 256 97).drop ((List.replicate 256 97).length % 256) ++ [5]) ∧
        (List.replicate 256 97).take ((List.replicate 256 97).length % 256) ≠
          List.replicate 256 97) :=
  ⟨by decide, by rw [List.length_replicate],
    claim_C9_filename_wrap [] (List.replicate 256 97) [5] [0, 0, 0, 0] [0, 0, 0, 0]
      (by decide) (by decide) (by rw [List.length_replicate])⟩

/-- C2: the first byte of any envelope produced by `WrapWriter` is never
1, so `WrapReader` always dispatches its output — under any password —
to the V2 `readHeader` path and never parses a V1 header. -/
theorem claim_C2_never_v1 (pw pw2 fn payload iv rbytes : List Nat)
    (hiv : iv.length = 4) :
    (wrapWriterBytes pw fn payload iv rbytes).headD 0 ≠ 1 ∧
      WrapReader (wrapWriterBytes pw fn payload iv rbytes) pw2 =
        readHeader ((wrapWriterBytes pw fn payload iv rbytes).drop 1)
          ((wrapWriterBytes pw fn payload iv rbytes).headD 0) pw2 := by
  rw [wrapWriterBytes_eq]
  refine wrapReader_dispatch _ _ _ ?_ (quirkEncIV_headD_ne_one _ _)
  have hp2len : (xorKeyStreamRun (headerKeyState pw) iv).2.length = 4 := by
    rw [run_length]; exact hiv
  have hp2ne : (xorKeyStreamRun (headerKeyState pw) iv).2 ≠ [] := by
    intro h; rw [h] at hp2len; simp at hp2len
  rw [quirkEncIV_length _ _ hp2ne]
  exact hp2len

theorem claim_C2_witness :
    ([9, 9, 9, 9] : List Nat).length = 4 ∧
      ((wrapWriterBytes [3] [7] [8] [9, 9, 9, 9] [1, 2, 3, 4]).headD 0 ≠ 1 ∧
        WrapReader (wrapWriterBytes [3] [7] [8] [9, 9, 9, 9] [1, 2, 3, 4]) [4] =
          readHeader ((wrapWriterBytes [3] [7] [8] [9, 9, 9, 9] [1, 2, 3, 4]).drop 1)
            ((wrapWriterBytes [3] [7] [8] [9, 9, 9, 9] [1, 2, 3, 4]).headD 0) [4]) :=
  ⟨by decide, claim_C2_never_v1 [3] [4] [7] [8] [9, 9, 9, 9] [1, 2, 3, 4] (by decide)⟩

/-- C3: the reader's in-place XOR of the stored `encIV` in `readHeader`
recovers exactly the iv the writer fed to the rehash: the perturbed iv —
first byte incremented mod 256, other bytes unchanged — whenever the
anti-V1 branch fired (`encIV[0] == 1` before the fix), and the plain iv
otherwise; the decrypting state also matches the writer's, so both sides
run `rehashKey` on identical inputs. -/
theorem claim_C3_quirk_consistency (pw iv : List Nat) (hiv : iv.length = 4) :
    xorKeyStreamRun (headerKeyState pw)
        (quirkEncIV iv (xorKeyStreamRun (headerKeyState pw) iv).2) =
      ((xorKeyStreamRun (headerKeyState pw) iv).1,
        if (xorKeyStreamRun (headerKeyState pw) iv).2.headD 0 = 1 then
          ((iv.headD 0 + 1) % 256) :: iv.tail
        else iv) ∧
      quirkIV iv (xorKeyStreamRun (headerKeyState pw) iv).2 =
        (if (xorKeyStreamRun (headerKeyState pw) iv).2.headD 0 = 1 then
          ((iv.headD 0 + 1) % 256) :: iv.tail
         else iv) := by
  have hivne : iv ≠ [] := by intro h; rw [h] at hiv; simp at hiv
  have h1 := quirk_decrypt (headerKeyState pw) iv hivne
  constructor
  · rw [h1]; rfl
  · rfl

/-! ### Keystream bytes are bytes: the permutation entries stay below 256 -/

/-- All entries of the permutation array are bytes. -/
def sBound (st : SpritzState) : Prop := ∀ v ∈ st.s, v < 256

theorem sget_lt (st : SpritzState) (x : Nat) (h : sBound st) : sget st x < 256 := by
  unfold sget
  have h1 : st.s.getD (x % 256) 0 = (st.s.get? (x % 256)).getD 0 := by
    simp [List.getD]
  rw [h1]
  cases hg : st.s.get? (x % 256) with
  | none => simp
  | some v => simpa using h v (List.get?_mem hg)

theorem getD_lt_of_all (l : List Nat) (n : Nat) (h : ∀ b ∈ l, b < 256) :
    l.getD n 0 < 256 := by
  have h1 : l.getD n 0 = (l.get? n).getD 0 := by simp [List.getD]
  rw [h1]
  cases hg : l.get? n with
  | none => simp
  | some v => simpa using h v (List.get?_mem hg)

theorem elems_lt_set (l : List Nat) (n v : Nat) (hl : ∀ x ∈ l, x < 256)
    (hv : v < 256) : ∀ x ∈ l.set n v, x < 256 := by
  intro x hx
  rcases List.mem_or_eq_of_mem_set hx with h | h
  · exact hl x h
  · rw [h]; exact hv

theorem sBound_sswap (st : SpritzState) (x y : Nat) (h : sBound st) :
    sBound (sswap st x y) := by
  intro v hv
  exact elems_lt_set _ _ _ (elems_lt_set _ _ _ h (sget_lt st y h)) (sget_lt st x h) v hv

theorem sBound_update (st : SpritzState) (h : sBound st) : sBound (update st) := by
  unfold update
  exact sBound_sswap _ _ _ (fun v hv => h v hv)

theorem sBound_updN (n : Nat) : ∀ st : SpritzState, sBound st → sBound (updN st n) := by
  induction n with
  | zero => intro st h; exact h
  | succ n ih => intro st h; exact ih _ (sBound_update st h)

theorem sBound_whip (st : SpritzState) (r : Nat) (h : sBound st) : sBound (whip st r) :=
  fun v hv => sBound_updN r st h v hv

theorem sBound_crush (st : SpritzState) (h : sBound st) : sBound (crush st) := by
  unfold crush
  generalize List.range 128 = l
  induction l generalizing st with
  | nil => exact h
  | cons x xs ih =>
    simp only [List.foldl]
    apply ih
    by_cases hc : sget st (255 - x) < sget st x
    · rw [if_pos hc]; exact sBound_sswap _ _ _ h
    · rw [if_neg hc]; exact h

theorem mk_s (s : List Nat) (i j k z a w : Nat) :
    (SpritzState.mk s i j k z a w).s = s := rfl

theorem sBound_shuffle (st : SpritzState) (h : sBound st) : sBound (shuffle st) := by
  have h1 : sBound (whip (crush (whip (crush (whip st 512)) 512)) 512) :=
    sBound_whip _ 512 (sBound_crush _ (sBound_whip _ 512
      (sBound_crush _ (sBound_whip _ 512 h))))
  unfold shuffle
  intro v hv
  rw [mk_s] at hv
  exact h1 v hv

theorem sBound_maybeShuffle (st : SpritzState) (h : sBound st) :
    sBound (maybeShuffle st) := by
  unfold maybeShuffle
  by_cases hc : 0 < st.a
  · rw [if_pos hc]; exact sBound_shuffle st h
  · rw [if_neg hc]; exact h

theorem sBound_absorbNibble (st : SpritzState) (x : Nat) (h : sBound st) :
    sBound (absorbNibble st x) := by
  unfold absorbNibble
  by_cases hc : st.a = 128
  · rw [if_pos hc]
    have h1 : sBound (sswap (shuffle st) ((shuffle st).a) (128 + x)) :=
      sBound_sswap _ _ _ (sBound_shuffle st h)
    intro v hv
    simp only [mk_s] at hv
    exact h1 v hv
  · rw [if_neg hc]
    have h1 : sBound (sswap st st.a (128 + x)) := sBound_sswap _ _ _ h
    intro v hv
    simp only [mk_s] at hv
    exact h1 v hv

theorem sBound_absorb (st : SpritzState) (b : Nat) (h : sBound st) :
    sBound (absorb st b) :=
  sBound_absorbNibble _ _ (sBound_absorbNibble _ _ h)

theorem sBound_absorbMany (bs : List Nat) :
    ∀ st : SpritzState, sBound st → sBound (absorbMany st bs) := by
  induction bs with
  | nil => intro st h; exact h
  | cons b bs ih => intro st h; exact ih _ (sBound_absorb st b h)

theorem sBound_absorbStop (st : SpritzState) (h : sBound st) :
    sBound (absorbStop st) := by
  unfold absorbStop
  by_cases hc : st.a = 128
  · rw [if_pos hc]
    have h1 : sBound (shuffle st) := sBound_shuffle st h
    intro v hv
    simp only [mk_s] at hv
    exact h1 v hv
  · rw [if_neg hc]
    intro v hv
    simp only [mk_s] at hv
    exact h v hv

theorem sBound_drip (st : SpritzState) (h : sBound st) :
    sBound (drip st).1 ∧ (drip st).2 < 256 := by
  have h2 : sBound (update (maybeShuffle st)) :=
    sBound_update _ (sBound_maybeShuffle _ h)
  exact ⟨fun v hv => h2 v hv, sget_lt _ _ h2⟩

theorem sBound_dripMany (n : Nat) : ∀ st : SpritzState, sBound st →
    sBound (dripMany st n).1 ∧ ∀ b ∈ (dripMany st n).2, b < 256 := by
  induction n with
  | zero => intro st h; exact ⟨h, by simp [dripMany]⟩
  | succ n ih =>
    intro st h
    obtain ⟨hd1, hd2⟩ := sBound_drip st h
    obtain ⟨ha, hb⟩ := ih _ hd1
    refine ⟨ha, ?_⟩
    intro b hb2
    simp only [dripMany, List.mem_cons] at hb2
    rcases hb2 with hb2 | hb2
    · rw [hb2]; exact hd2
    · exact hb b hb2

theorem sBound_skipN (n : Nat) : ∀ st : SpritzState, sBound st →
    sBound (skipN st n) := by
  induction n with
  | zero => intro st h; exact h
  | succ n ih => intro st h; exact ih _ (sBound_drip st h).1

theorem byte_xor_lt (a b : Nat) (ha : a < 256) (hb : b < 256) : a ^^^ b < 256 := by
  have h8 : (256 : Nat) = 2 ^ 8 := by norm_num
  rw [h8] at ha hb ⊢
  exact Nat.bitwise_lt ha hb

theorem sBound_xorBytes (vs : List Nat) : ∀ st : SpritzState, sBound st →
    sBound (xorBytes st vs).1 ∧
      ((∀ b ∈ vs, b < 256) → ∀ b ∈ (xorBytes st vs).2, b < 256) := by
  induction vs with
  | nil => intro st h; exact ⟨h, by simp [xorBytes]⟩
  | cons v vs ih =>
    intro st h
    obtain ⟨hd1, hd2⟩ := sBound_drip st h
    obtain ⟨ha, hb⟩ := ih _ hd1
    refine ⟨ha, ?_⟩
    intro hvs b hb2
    simp only [xorBytes, List.mem_cons] at hb2
    rcases hb2 with hb2 | hb2
    · rw [hb2]
      exact byte_xor_lt _ _ (hvs v (by simp)) hd2
    · exact hb (fun x hx => hvs x (by simp [hx])) b hb2

theorem sBound_run (st : SpritzState) (vs : List Nat) (h : sBound st) :
    sBound (xorKeyStreamRun st vs).1 :=
  (sBound_xorBytes vs _ (sBound_maybeShuffle st h)).1

theorem out_run_lt (st : SpritzState) (vs : List Nat) (h : sBound st)
    (hv : ∀ b ∈ vs, b < 256) : ∀ b ∈ (xorKeyStreamRun st vs).2, b < 256 :=
  (sBound_xorBytes vs _ (sBound_maybeShuffle st h)).2 hv

theorem sBound_rehashRounds (n : Nat) : ∀ (c : SpritzState) (iv tmp : List Nat),
    sBound c → sBound (rehashRounds c iv tmp n).1 := by
  induction n with
  | zero => intro c iv tmp h; exact h
  | succ n ih =>
    intro c iv tmp h
    exact ih _ iv _ (sBound_absorbMany _ _
      (sBound_absorbStop _ (sBound_absorbMany _ _ (sBound_dripMany _ _ h).1)))

theorem sBound_rehashKey (c : SpritzState) (iv tmp : List Nat) (h : sBound c) :
    sBound (rehashKey c iv tmp) :=
  sBound_rehashRounds 20 c iv tmp h

theorem sBound_initState : sBound initState := by
  intro v hv
  simp only [initState] at hv
  exact List.mem_range.mp hv

theorem sBound_headerKeyState (pw : List Nat) : sBound (headerKeyState pw) :=
  sBound_absorb _ _ (sBound_absorbStop _ (sBound_absorbMany _ _ sBound_initState))

theorem sBound_newStream (pw iv : List Nat) (iterations : Nat) :
    sBound (newStream pw iv iterations) := by
  unfold newStream
  exact sBound_absorbMany _ _ sBound_initState

/-! ### Characterizations of the reader paths -/

/-- `readHeader` with the three fixed-size header reads resolved: on an
input of at least 13 bytes it reaches the version/hash check. -/
theorem readHeader_eq (src : List Nat) (fb : Nat) (pw : List Nat)
    (hlen : 13 ≤ src.length) :
    readHeader src fb pw =
      (let p := xorKeyStreamRun (headerKeyState pw) (fb :: src.take 3)
       let c3 := rehashKey p.1 p.2 (Sum 2048 pw)
       let pr := xorKeyStreamRun c3 ((src.drop 3).take 4)
       let c5 := skipN pr.1 (pr.2.getD 3 0)
       let prem := xorKeyStreamRun c5 (((src.drop 3).drop 4).take 6)
       let src3 := ((src.drop 3).drop 4).drop 6
       if prem.2.getD 0 0 ≠ 2 ∨ (prem.2.drop 1).take 4 ≠ Sum 32 pr.2 then
         .error badPwV2Msg
       else
         let fnlen := prem.2.getD 5 0
         if 0 < fnlen then
           if fnlen ≤ src3.length then
             let pf := xorKeyStreamRun prem.1 (src3.take fnlen)
             .ok (pf.2, (xorKeyStreamRun pf.1 (src3.drop fnlen)).2)
           else .error shortReadMsg
         else .ok ([], (xorKeyStreamRun prem.1 src3).2)) := by
  unfold readHeader
  have h1 : 3 ≤ src.length := by omega
  have h2 : 4 ≤ (src.drop 3).length := by rw [List.length_drop]; omega
  have h3 : 6 ≤ ((src.drop 3).drop 4).length := by
    rw [List.length_drop, List.length_drop]; omega
  rw [if_pos h1, if_pos h2, if_pos h3]

/-- `readV1Header` with the two fixed-size header reads resolved. -/
theorem readV1Header_eq (src : List Nat) (pw : List Nat)
    (hlen : 13 ≤ src.length) :
    readV1Header src pw =
      (let st := newStream pw (src.take 4) 5000
       let ph := xorKeyStreamRun st ((src.drop 4).take 9)
       let src2 := (src.drop 4).drop 9
       if Sum 32 (ph.2.take 4) ≠ (ph.2.drop 4).take 4 then .error badPwV1Msg
       else
         let fnlen := ph.2.getD 8 0
         if 0 < fnlen then
           if fnlen ≤ src2.length then
             let pf := xorKeyStreamRun ph.1 (src2.take fnlen)
             .ok (pf.2, (xorKeyStreamRun pf.1 (src2.drop fnlen)).2)
           else .error shortReadMsg
         else .ok ([], (xorKeyStreamRun ph.1 src2).2)) := by
  unfold readV1Header
  have h1 : 4 ≤ src.length := by omega
  have h2 : 9 ≤ (src.drop 4).length := by rw [List.length_drop]; omega
  rw [if_pos h1, if_pos h2]

/-- The rbytes value `readHeader` decrypts from bytes 4–7 of the header
(source lines 130–133), as a function of the whole input. -/
def v2Rbytes (src : List Nat) (fb : Nat) (pw : List Nat) : List Nat :=
  (xorKeyStreamRun
    (rehashKey (xorKeyStreamRun (headerKeyState pw) (fb :: src.take 3)).1
      (xorKeyStreamRun (headerKeyState pw) (fb :: src.take 3)).2 (Sum 2048 pw))
    ((src.drop 3).take 4)).2

/-- The state `readHeader` holds after decrypting rbytes and discarding
`rbytes[3]` keystream bytes (source lines 135–138). -/
def v2SkipState (src : List Nat) (fb : Nat) (pw : List Nat) : SpritzState :=
  skipN
    (xorKeyStreamRun
      (rehashKey (xorKeyStreamRun (headerKeyState pw) (fb :: src.take 3)).1
        (xorKeyStreamRun (headerKeyState pw) (fb :: src.take 3)).2 (Sum 2048 pw))
      ((src.drop 3).take 4)).1
    ((v2Rbytes src fb pw).getD 3 0)

/-- The six decrypted bytes `readHeader` reads after the skip (source
lines 140–144): version, rbytes hash, filename length. -/
def v2Remaining (src : List Nat) (fb : Nat) (pw : List Nat) : List Nat :=
  (xorKeyStreamRun (v2SkipState src fb pw) (((src.drop 3).drop 4).take 6)).2

/-- The stream state after the six-byte read of `readHeader`. -/
def v2RemState (src : List Nat) (fb : Nat) (pw : List Nat) : SpritzState :=
  (xorKeyStreamRun (v2SkipState src fb pw) (((src.drop 3).drop 4).take 6)).1

/-- The nine decrypted header bytes of the V1 path (source lines 71–74). -/
def v1Header (src : List Nat) (pw : List Nat) : List Nat :=
  (xorKeyStreamRun (newStream pw (src.take 4) 5000) ((src.drop 4).take 9)).2

/-- The stream state after the nine-byte header read of the V1 path. -/
def v1State (src : List Nat) (pw : List Nat) : SpritzState :=
  (xorKeyStreamRun (newStream pw (src.take 4) 5000) ((src.drop 4).take 9)).1

/-- `readHeader` on an input of at least 13 bytes, phrased through the
named intermediate values. -/
theorem readHeader_eq2 (src : List Nat) (fb : Nat) (pw : List Nat)
    (hlen : 13 ≤ src.length) :
    readHeader src fb pw =
      (if (v2Remaining src fb pw).getD 0 0 ≠ 2 ∨
          ((v2Remaining src fb pw).drop 1).take 4 ≠ Sum 32 (v2Rbytes src fb pw) then
        .error badPwV2Msg
      else if 0 < (v2Remaining src fb pw).getD 5 0 then
        if (v2Remaining src fb pw).getD 5 0 ≤ (((src.drop 3).drop 4).drop 6).length then
          .ok ((xorKeyStreamRun (v2RemState src fb pw)
              ((((src.drop 3).drop 4).drop 6).take ((v2Remaining src fb pw).getD 5 0))).2,
            (xorKeyStreamRun
              (xorKeyStreamRun (v2RemState src fb pw)
                ((((src.drop 3).drop 4).drop 6).take ((v2Remaining src fb pw).getD 5 0))).1
              ((((src.drop 3).drop 4).drop 6).drop ((v2Remaining src fb pw).getD 5 0))).2)
        else .error shortReadMsg
      else
        .ok ([], (xorKeyStreamRun (v2RemState src fb pw) (((src.drop 3).drop 4).drop 6)).2)) := by
  rw [readHeader_eq src fb pw hlen]
  rfl

/-- `readV1Header` on an input of at least 13 bytes, phrased through the
named intermediate values. -/
theorem readV1Header_eq2 (src : List Nat) (pw : List Nat)
    (hlen : 13 ≤ src.length) :
    readV1Header src pw =
      (if Sum 32 ((v1Header src pw).take 4) ≠ ((v1Header src pw).drop 4).take 4 then
        .error badPwV1Msg
      else if 0 < (v1Header src pw).getD 8 0 then
        if (v1Header src pw).getD 8 0 ≤ ((src.drop 4).drop 9).length then
          .ok ((xorKeyStreamRun (v1State src pw)
              (((src.drop 4).drop 9).take ((v1Header src pw).getD 8 0))).2,
            (xorKeyStreamRun
              (xorKeyStreamRun (v1State src pw)
                (((src.drop 4).drop 9).take ((v1Header src pw).getD 8 0))).1
              (((src.drop 4).drop 9).drop ((v1Header src pw).getD 8 0))).2)
        else .error shortReadMsg
      else .ok ([], (xorKeyStreamRun (v1State src pw) ((src.drop 4).drop 9)).2)) := by
  rw [readV1Header_eq src pw hlen]
  rfl

/-- On sufficiently long input, `readHeader` fails with the bad-password
message exactly when the version byte or the hash comparison fails. -/
theorem readHeader_badPw_iff (src : List Nat) (fb : Nat) (pw : List Nat)
    (hlen : 13 ≤ src.length) :
    (readHeader src fb pw = .error badPwV2Msg ↔
      ((v2Remaining src fb pw).getD 0 0 ≠ 2 ∨
        ((v2Remaining src fb pw).drop 1).take 4 ≠ Sum 32 (v2Rbytes src fb pw))) := by
  rw [readHeader_eq2 src fb pw hlen]
  by_cases hc : (v2Remaining src fb pw).getD 0 0 ≠ 2 ∨
      ((v2Remaining src fb pw).drop 1).take 4 ≠ Sum 32 (v2Rbytes src fb pw)
  · rw [if_pos hc]
    exact ⟨fun _ => hc, fun _ => rfl⟩
  · rw [if_neg hc]
    constructor
    · intro hk
      by_cases hf : 0 < (v2Remaining src fb pw).getD 5 0
      · rw [if_pos hf] at hk
        by_cases hg : (v2Remaining src fb pw).getD 5 0 ≤
            (((src.drop 3).drop 4).drop 6).length
        · rw [if_pos hg] at hk
          exact absurd hk (by simp)
        · rw [if_neg hg] at hk
          have h2 : shortReadMsg = badPwV2Msg := Except.error.inj hk
          exact absurd h2 (by decide)
      · rw [if_neg hf] at hk
        exact absurd hk (by simp)
    · intro hk
      exact absurd hk hc

/-- On sufficiently long input, `readV1Header` fails with its own
bad-password message exactly when the checksum comparison fails. -/
theorem readV1_badPw_iff (src : List Nat) (pw : List Nat)
    (hlen : 13 ≤ src.length) :
    (readV1Header src pw = .error badPwV1Msg ↔
      Sum 32 ((v1Header src pw).take 4) ≠ ((v1Header src pw).drop 4).take 4) := by
  rw [readV1Header_eq2 src pw hlen]
  by_cases hc : Sum 32 ((v1Header src pw).take 4) ≠ ((v1Header src pw).drop 4).take 4
  · rw [if_pos hc]
    exact ⟨fun _ => hc, fun _ => rfl⟩
  · rw [if_neg hc]
    constructor
    · intro hk
      by_cases hf : 0 < (v1Header src pw).getD 8 0
      · rw [if_pos hf] at hk
        by_cases hg : (v1Header src pw).getD 8 0 ≤ ((src.drop 4).drop 9).length
        · rw [if_pos hg] at hk
          exact absurd hk (by simp)
        · rw [if_neg hg] at hk
          have h2 : shortReadMsg = badPwV1Msg := Except.error.inj hk
          exact absurd h2 (by decide)
      · rw [if_neg hf] at hk
        exact absurd hk (by simp)
    · intro hk
      exact absurd hk hc

theorem run_nil (st : SpritzState) : xorKeyStreamRun st [] = (maybeShuffle st, []) := rfl

/-- C8: the V2 header emitted by `WrapWriter` is, in order: the 4-byte
encIV written in plaintext, then — through the encrypting stream — the 4
random rbytes, then (after discarding `rbytes[3]` keystream bytes on the
underlying state) the single version byte 2, the 4-byte `Sum 32 rbytes`
digest, and one filename-length byte followed by the filename bytes. -/
theorem claim_C8_header_layout (pw fn iv rbytes : List Nat)
    (hiv : iv.length = 4) (hrb : rbytes.length = 4) :
    (let p := xorKeyStreamRun (headerKeyState pw) iv
     let encIV := quirkEncIV iv p.2
     let c3 := rehashKey p.1 (quirkIV iv p.2) (Sum 2048 pw)
     let pr := xorKeyStreamRun c3 rbytes
     let c5 := skipN pr.1 (rbytes.getD 3 0)
     let pv := xorKeyStreamRun c5 [2]
     let ph := xorKeyStreamRun pv.1 (Sum 32 rbytes)
     let pn := xorKeyStreamRun ph.1 ((fn.length % 256) :: fn)
     wrapWriterBytes pw fn [] iv rbytes =
        encIV ++ (pr.2 ++ (pv.2 ++ (ph.2 ++ pn.2))) ∧
      encIV.length = 4 ∧ pr.2.length = 4 ∧ pv.2.length = 1 ∧
      ph.2.length = 4 ∧ pn.2.length = fn.length + 1) := by
  dsimp only
  have hp2len : (xorKeyStreamRun (headerKeyState pw) iv).2.length = 4 := by
    rw [run_length]; exact hiv
  have hp2ne : (xorKeyStreamRun (headerKeyState pw) iv).2 ≠ [] := by
    intro h; rw [h] at hp2len; simp at hp2len
  refine ⟨?_, ?_, ?_, ?_, ?_, ?_⟩
  · rw [wrapWriterBytes_eq, run_nil]
    dsimp only
    rw [List.append_nil]
  · rw [quirkEncIV_length _ _ hp2ne]; exact hp2len
  · rw [run_length]; exact hrb
  · rw [run_length]; rfl
  · rw [run_length]; exact Sum_length 32 rbytes
  · rw [run_length]; simp

theorem claim_C8_witness :
    ([6, 7, 8, 9] : List Nat).length = 4 ∧
      (let p := xorKeyStreamRun (headerKeyState [1]) [6, 7, 8, 9]
       let encIV := quirkEncIV [6, 7, 8, 9] p.2
       let c3 := rehashKey p.1 (quirkIV [6, 7, 8, 9] p.2) (Sum 2048 [1])
       let pr := xorKeyStreamRun c3 [1, 2, 3, 4]
       let c5 := skipN pr.1 (([1, 2, 3, 4] : List Nat).getD 3 0)
       let pv := xorKeyStreamRun c5 [2]
       let ph := xorKeyStreamRun pv.1 (Sum 32 [1, 2, 3, 4])
       let pn := xorKeyStreamRun ph.1 ((([5] : List Nat).length % 256) :: [5])
       wrapWriterBytes [1] [5] [] [6, 7, 8, 9] [1, 2, 3, 4] =
          encIV ++ (pr.2 ++ (pv.2 ++ (ph.2 ++ pn.2))) ∧
        encIV.length = 4 ∧ pr.2.length = 4 ∧ pv.2.length = 1 ∧
        ph.2.length = 4 ∧ pn.2.length = ([5] : List Nat).length + 1) :=
  ⟨by decide, claim_C8_header_layout [1] [5] [6, 7, 8, 9] [1, 2, 3, 4] (by decide) (by decide)⟩

/-- C10: `WrapWriter` discards the result of the direct
`sink.Write(encIV)` call: when that very first sink write fails (and the
four stream-writer writes succeed) the returned error is still nil, even
though the four plaintext encIV bytes never reached the sink — the bytes
actually written are the perfect-sink envelope minus its first 4 bytes. -/
theorem claim_C10_encIV_error_ignored (pw fn iv rbytes : List Nat) (msg : String)
    (hiv : iv.length = 4) :
    (WrapWriter [some msg, none, none, none, none] pw fn iv rbytes).1 = none ∧
    (WrapWriter [some msg, none, none, none, none] pw fn iv rbytes).2.2 =
      (WrapWriter (List.replicate 5 none) pw fn iv rbytes).2.2.drop 4 := by
  have hp2len : (xorKeyStreamRun (headerKeyState pw) iv).2.length = 4 := by
    rw [run_length]; exact hiv
  have hp2ne : (xorKeyStreamRun (headerKeyState pw) iv).2 ≠ [] := by
    intro h; rw [h] at hp2len; simp at hp2len
  have hE4 : (quirkEncIV iv (xorKeyStreamRun (headerKeyState pw) iv).2).length = 4 := by
    rw [quirkEncIV_length _ _ hp2ne]; exact hp2len
  constructor
  · rfl
  · simp [WrapWriter]
    rw [List.drop_left' hE4]

theorem claim_C10_witness :
    ([0, 0, 0, 0] : List Nat).length = 4 ∧
      ((WrapWriter [some "boom", none, none, none, none] [] [] [0, 0, 0, 0] [0, 0, 0, 0]).1 =
          none ∧
        (WrapWriter [some "boom", none, none, none, none] [] [] [0, 0, 0, 0] [0, 0, 0, 0]).2.2 =
          (WrapWriter (List.replicate 5 none) [] [] [0, 0, 0, 0] [0, 0, 0, 0]).2.2.drop 4) :=
  ⟨by decide, claim_C10_encIV_error_ignored [] [] [0, 0, 0, 0] [0, 0, 0, 0] "boom" (by decide)⟩

/-- C6: on the V2 path, after decrypting rbytes, `readHeader` discards
exactly `rbytes[3]` keystream bytes (built into `v2SkipState`, hence into
`v2Remaining`), reads 6 more decrypted bytes, and returns the
bad-password error precisely when the first of those bytes is not 2 or
bytes 1–4 differ from `Sum 32 rbytes`; when both checks pass (and the
input is long enough to hold any filename) it returns a result rather
than an error. -/
theorem claim_C6_v2_checks (src : List Nat) (fb : Nat) (pw : List Nat)
    (hlen : 268 ≤ src.length) (hbytes : ∀ b ∈ src, b < 256) :
    (readHeader src fb pw = .error badPwV2Msg ↔
      ((v2Remaining src fb pw).getD 0 0 ≠ 2 ∨
        ((v2Remaining src fb pw).drop 1).take 4 ≠ Sum 32 (v2Rbytes src fb pw))) ∧
    (((v2Remaining src fb pw).getD 0 0 = 2 ∧
        ((v2Remaining src fb pw).drop 1).take 4 = Sum 32 (v2Rbytes src fb pw)) →
      ∃ r, readHeader src fb pw = .ok r) := by
  refine ⟨readHeader_badPw_iff src fb pw (by omega), ?_⟩
  intro hk
  rw [readHeader_eq2 src fb pw (by omega)]
  have hC : ¬ ((v2Remaining src fb pw).getD 0 0 ≠ 2 ∨
      ((v2Remaining src fb pw).drop 1).take 4 ≠ Sum 32 (v2Rbytes src fb pw)) := by
    intro hc
    rcases hc with hc | hc
    · exact hc hk.1
    · exact hc hk.2
  rw [if_neg hC]
  have hrem : ∀ b ∈ v2Remaining src fb pw, b < 256 := by
    unfold v2Remaining
    apply out_run_lt
    · unfold v2SkipState
      exact sBound_skipN _ _ (sBound_run _ _ (sBound_rehashKey _ _ _
        (sBound_run _ _ (sBound_headerKeyState pw))))
    · intro b hb
      exact hbytes b
        (List.drop_subset _ _ (List.drop_subset _ _ (List.take_subset _ _ hb)))
  have hflt : (v2Remaining src fb pw).getD 5 0 < 256 := getD_lt_of_all _ _ hrem
  have hs3 : 255 ≤ (((src.drop 3).drop 4).drop 6).length := by
    simp only [List.length_drop]
    omega
  by_cases hz : 0 < (v2Remaining src fb pw).getD 5 0
  · rw [if_pos hz, if_pos (by omega)]
    exact ⟨_, rfl⟩
  · rw [if_neg hz]
    exact ⟨_, rfl⟩

theorem claim_C6_witness :
    268 ≤ (List.replicate 268 0).length ∧ (∀ b ∈ List.replicate 268 0, b < 256) ∧
      ((readHeader (List.replicate 268 0) 0 [] = .error badPwV2Msg ↔
        ((v2Remaining (List.replicate 268 0) 0 []).getD 0 0 ≠ 2 ∨
          ((v2Remaining (List.replicate 268 0) 0 []).drop 1).take 4 ≠
            Sum 32 (v2Rbytes (List.replicate 268 0) 0 []))) ∧
      (((v2Remaining (List.replicate 268 0) 0 []).getD 0 0 = 2 ∧
          ((v2Remaining (List.replicate 268 0) 0 []).drop 1).take 4 =
            Sum 32 (v2Rbytes (List.replicate 268 0) 0 [])) →
        ∃ r, readHeader (List.replicate 268 0) 0 [] = .ok r)) :=
  ⟨by rw [List.length_replicate], by intro b hb; rw [List.eq_of_mem_replicate hb]; omega,
    claim_C6_v2_checks (List.replicate 268 0) 0 []
      (by rw [List.length_replicate]) (by intro b hb; rw [List.eq_of_mem_replicate hb]; omega)⟩

/-- C7 (amended): each of the three integrity checks surfaces as the
single bad-password error of its path — both V2 checks share the one
message of `readHeader` — but the V1 checksum failure carries a different
message than the V2 failures, so the error does distinguish the V1 check
from the two V2 checks. -/
theorem claim_C7_messages (src1 src2 : List Nat) (fb : Nat) (pw1 pw2 : List Nat)
    (h1 : 13 ≤ src1.length) (h2 : 13 ≤ src2.length) :
    (readV1Header src1 pw1 = .error badPwV1Msg ↔
      Sum 32 ((v1Header src1 pw1).take 4) ≠ ((v1Header src1 pw1).drop 4).take 4) ∧
    (readHeader src2 fb pw2 = .error badPwV2Msg ↔
      ((v2Remaining src2 fb pw2).getD 0 0 ≠ 2 ∨
        ((v2Remaining src2 fb pw2).drop 1).take 4 ≠ Sum 32 (v2Rbytes src2 fb pw2))) ∧
    badPwV1Msg ≠ badPwV2Msg :=
  ⟨readV1_badPw_iff src1 pw1 h1, readHeader_badPw_iff src2 fb pw2 h2, by decide⟩

theorem claim_C7_witness :
    13 ≤ (List.replicate 13 0).length ∧
      ((readV1Header (List.replicate 13 0) [] = .error badPwV1Msg ↔
        Sum 32 ((v1Header (List.replicate 13 0) []).take 4) ≠
          ((v1Header (List.replicate 13 0) []).drop 4).take 4) ∧
      (readHeader (List.replicate 13 0) 0 [] = .error badPwV2Msg ↔
        ((v2Remaining (List.replicate 13 0) 0 []).getD 0 0 ≠ 2 ∨
          ((v2Remaining (List.replicate 13 0) 0 []).drop 1).take 4 ≠
            Sum 32 (v2Rbytes (List.replicate 13 0) 0 []))) ∧
      badPwV1Msg ≠ badPwV2Msg) :=
  ⟨by rw [List.length_replicate],
    claim_C7_messages (List.replicate 13 0) (List.replicate 13 0) 0 [] []
      (by rw [List.length_replicate]) (by rw [List.length_replicate])⟩

/-- C7 fails as originally stated: the V1 checksum failure and the V2
failures do not carry an identical message — `readV1Header` says
"Bad password or corrupted file!" (source line 78) while `readHeader`
says "Bad pw or corrupted file!" (source line 149). -/
theorem claim_C7_counterexample : badPwV1Msg ≠ badPwV2Msg := by decide

theorem claim_C3_witness :
    ([0, 0, 0, 0] : List Nat).length = 4 ∧
      (xorKeyStreamRun (headerKeyState [])
          (quirkEncIV [0, 0, 0, 0] (xorKeyStreamRun (headerKeyState []) [0, 0, 0, 0]).2) =
        ((xorKeyStreamRun (headerKeyState []) [0, 0, 0, 0]).1,
          if (xorKeyStreamRun (headerKeyState []) [0, 0, 0, 0]).2.headD 0 = 1 then
            (([0, 0, 0, 0].headD 0 + 1) % 256) :: [0, 0, 0, 0].tail
          else [0, 0, 0, 0]) ∧
        quirkIV [0, 0, 0, 0] (xorKeyStreamRun (headerKeyState []) [0, 0, 0, 0]).2 =
          (if (xorKeyStreamRun (headerKeyState []) [0, 0, 0, 0]).2.headD 0 = 1 then
            (([0, 0, 0, 0].headD 0 + 1) % 256) :: [0, 0, 0, 0].tail
           else [0, 0, 0, 0])) :=
  ⟨by decide, claim_C3_quirk_consistency [] [0, 0, 0, 0] (by decide)⟩

end Spritz
